import Mathlib

set_option maxRecDepth 8000

/-!
Shallow embedding of the transcription/summarization pipeline of `src/app.py`
(functions `transcribe_audio` and `summarize_text_offline`), together with
proofs of the specified properties.

Python strings are modelled as Lean `String` (logically a list of characters,
matching Python's code-point slicing); Python byte data read from the WAV file
is modelled as a list of frames.  A Python function that can raise an uncaught
exception is modelled with `Except Unit`: `Except.error ()` is an exception
propagating out of the function, `Except.ok` is a normal `return`.
-/

/-- Python `str.strip()` on the character list: drop whitespace from the left,
then from the right. -/
def stripChars (cs : List Char) : List Char :=
  ((cs.dropWhile Char.isWhitespace).reverse.dropWhile Char.isWhitespace).reverse

/-- Python `str.strip()`: remove leading and trailing whitespace. -/
def pyStrip (s : String) : String := String.mk (stripChars s.data)

/-- Python `range(0, stop, step)`: the starts `0, step, 2*step, ...` below
`stop`; it has exactly `ceil(stop/step)` elements. -/
def pyRangeStep (stop step : Nat) : List Nat :=
  (List.range ((stop + step - 1) / step)).map (fun i => i * step)

/-- Python slice `l[a : a+n]`: drop `a`, take `n`. -/
def pySlice (l : List α) (a n : Nat) : List α := (l.drop a).take n

/-- The list comprehension `[l[i:i+n] for i in range(0, len(l), n)]`. -/
def chunksOf (n : Nat) (l : List α) : List (List α) :=
  (pyRangeStep l.length n).map (fun i => pySlice l i n)

/-- String-level chunking, used on the summarization prompt with `n = 1200`. -/
def strChunks (n : Nat) (s : String) : List String :=
  (chunksOf n s.data).map String.mk

-- ----------------------------------------------------------------
-- Summarizer (`summarize_text_offline`, src/app.py lines 115-141)
-- ----------------------------------------------------------------

/-- Keyword arguments of the `summarizer(chunk, max_length=160, min_length=60,
do_sample=False)` call. -/
structure GenParams where
  max_length : Nat
  min_length : Nat
  do_sample : Bool
  deriving DecidableEq

/-- The parameters the code passes on every model invocation. -/
def genParams : GenParams := { max_length := 160, min_length := 60, do_sample := false }

/-- The summarization-model handle: given the generation parameters and an
input chunk it either produces `out[0]["summary_text"]` (`some`) or raises
(`none`). -/
def GenModel : Type := GenParams → String → Option String

/-- The error message returned for an empty transcript. -/
def emptyTranscriptMsg : String := "Empty transcript, cannot summarize."

/-- The instructional prompt: the f-string of lines 120-131 with the
transcript interpolated once. -/
def promptOf (text : String) : String :=
  "\nYou are an expert meeting summarizer.\n\nCreate a contextual summary with:\n1) Main topic\n2) Key points (bullets)\n3) Action items (if any)\n4) Important entities (names, dates, places)\n\nTranscript:\n" ++ text ++ "\n"

/-- The `for chunk in chunks` loop: feed the chunks to the model in order,
stopping at the first chunk on which the model raises.  Returns the list of
inputs actually fed to the model, and `some` of the collected
`summary_text`s, or `none` when an invocation raised. -/
def runChunks (m : GenModel) : List String → List String × Option (List String)
  | [] => ([], some [])
  | c :: cs =>
    match m genParams c with
    | none => ([c], none)
    | some s =>
      match runChunks m cs with
      | (fed, none) => (c :: fed, none)
      | (fed, some ss) => (c :: fed, some (s :: ss))

/-- `summarize_text_offline`, instrumented with the list of model inputs fed:
empty-transcript check, prompt construction, chunking into slices of at most
1200 characters, per-chunk model invocation, space-joined and stripped
result. -/
def summarizeRun (m : GenModel) (text : String) :
    List String × Except Unit (Option String × Option String) :=
  if text = "" ∨ pyStrip text = "" then
    ([], Except.ok (none, some emptyTranscriptMsg))
  else
    match runChunks m (strChunks 1200 (promptOf text)) with
    | (fed, none) => (fed, Except.error ())
    | (fed, some summaries) =>
      (fed, Except.ok (some (pyStrip (String.intercalate " " summaries)), none))

/-- The value of `summarize_text_offline(text)`: a `(summary, None)` or
`(None, error-message)` pair, or a propagating exception. -/
def summarize_text_offline (m : GenModel) (text : String) :
    Except Unit (Option String × Option String) :=
  (summarizeRun m text).2

/-- The inputs fed to the generation model during `summarize_text_offline`. -/
def summarizerCalls (m : GenModel) (text : String) : List String :=
  (summarizeRun m text).1

-- ----------------------------------------------------------------
-- Chunking lemmas
-- ----------------------------------------------------------------

theorem chunksOf_length (n : Nat) (l : List α) :
    (chunksOf n l).length = (l.length + n - 1) / n := by
  simp [chunksOf, pyRangeStep]

theorem chunksOf_get (n : Nat) (l : List α) (i : Fin (chunksOf n l).length) :
    (chunksOf n l).get i = (l.drop (i.val * n)).take n := by
  rcases i with ⟨i, hi⟩
  simp [chunksOf, pyRangeStep, pySlice] at hi ⊢

theorem chunksOf_mem_length_le (n : Nat) (l : List α) (c : List α)
    (hc : c ∈ chunksOf n l) : c.length ≤ n := by
  simp only [chunksOf, List.mem_map] at hc
  obtain ⟨i, _, rfl⟩ := hc
  simp [pySlice, List.length_take]

theorem ceilDiv_pos_step (n L : Nat) (hn : 0 < n) (hL : 0 < L) :
    (L + n - 1) / n = (L - n + n - 1) / n + 1 := by
  rcases Nat.le_total L n with h | h
  · have h1 : L - n = 0 := by omega
    have h3 : L + n - 1 = (L - 1) + n := by omega
    rw [h1, h3, Nat.zero_add, Nat.add_div_right _ hn,
      Nat.div_eq_of_lt (show L - 1 < n by omega),
      Nat.div_eq_of_lt (show n - 1 < n by omega)]
  · have h3 : L + n - 1 = (L - n + n - 1) + n := by omega
    rw [h3, Nat.add_div_right _ hn]

theorem chunksOf_nil (n : Nat) : chunksOf n ([] : List α) = [] := by
  have h : (n - 1) / n = 0 := by
    rcases Nat.eq_zero_or_pos n with h0 | h0
    · simp [h0]
    · exact Nat.div_eq_of_lt (by omega)
  simp [chunksOf, pyRangeStep, h]

theorem chunksOf_cons (n : Nat) (hn : 0 < n) (l : List α) (hl : l ≠ []) :
    chunksOf n l = l.take n :: chunksOf n (l.drop n) := by
  have hL : 0 < l.length := List.length_pos.mpr hl
  have hcount : (l.length + n - 1) / n = ((l.drop n).length + n - 1) / n + 1 := by
    rw [List.length_drop]
    exact ceilDiv_pos_step n l.length hn hL
  unfold chunksOf pyRangeStep
  rw [hcount, List.range_succ_eq_map]
  simp only [List.map_cons, List.map_map]
  congr 1
  · simp [pySlice]
  · apply List.map_congr_left
    intro i _
    simp [Function.comp_apply, pySlice, List.drop_drop, Nat.succ_mul, Nat.add_comm]

theorem chunksOf_flatten (n : Nat) (hn : 0 < n) (l : List α) :
    (chunksOf n l).flatten = l := by
  generalize hk : l.length = k
  induction k using Nat.strong_induction_on generalizing l with
  | _ k ih =>
    cases l with
    | nil => rw [chunksOf_nil]; rfl
    | cons a t =>
      subst hk
      rw [chunksOf_cons n hn _ (by simp), List.flatten_cons,
        ih ((a :: t).drop n).length (by simp; omega) _ rfl,
        List.take_append_drop]

-- ----------------------------------------------------------------
-- Transcriber (`transcribe_audio`, src/app.py lines 89-112)
-- ----------------------------------------------------------------

/-- The opened WAV container: its declared header fields and its PCM frames.
Successive `audio.readframes(4000)` calls return the at-most-4000-frame
slices of `frames` in order and then empty data, so the non-empty reads of
the `while True` loop are exactly `chunksOf 4000 frames`. -/
structure WavFile where
  nchannels : Nat
  sampwidth : Nat
  framerate : Nat
  frames : List Nat

/-- The `KaldiRecognizer` handle, stateful across frame batches within one
run.  `accept s b` models `rec.AcceptWaveform(data)` followed, when it
returns `True`, by `json.loads(rec.Result()).get("text", "")`: it yields the
new internal state and `some part` at an utterance boundary, `none`
otherwise; `Except.error ()` is a raised recognizer error.  `finalResult`
models `json.loads(rec.FinalResult()).get("text", "")`. -/
structure RecMachine (σ : Type) where
  init : σ
  accept : σ → List Nat → Except Unit (σ × Option String)
  finalResult : σ → Except Unit String

/-- The error message for a failed format validation. -/
def invalidAudioMsg : String := "Audio must be WAV mono PCM (16-bit)."

/-- The batches the read loop obtains from the audio source. -/
def readBatches (frames : List Nat) : List (List Nat) := chunksOf 4000 frames

/-- The `while True` decode loop, iterating over the non-empty reads:
on an utterance boundary append `part + " "` to the running text.  Returns
the batches actually fed to the recognizer and, unless an error was raised,
the final state and accumulated text. -/
def decodeLoop (rec : RecMachine σ) :
    σ → List (List Nat) → String → List (List Nat) × Except Unit (σ × String)
  | s, [], text => ([], Except.ok (s, text))
  | s, b :: bs, text =>
    match rec.accept s b with
    | Except.error e => ([b], Except.error e)
    | Except.ok (s', none) =>
      match decodeLoop rec s' bs text with
      | (fed, out) => (b :: fed, out)
    | Except.ok (s', some part) =>
      match decodeLoop rec s' bs (text ++ part ++ " ") with
      | (fed, out) => (b :: fed, out)

/-- One invocation of `transcribe_audio`: the returned value (or propagating
exception), whether `audio.close()` was executed, whether the
`KaldiRecognizer` was constructed, and the batches fed to it. -/
structure TransRun where
  result : Except Unit (Option String × Option String)
  closed : Bool
  recInit : Bool
  fed : List (List Nat)

/-- `transcribe_audio`: format validation (close and return the error on
violation), then the frame-batch decode loop, the final result, `close`,
and the stripped transcript.  No handler wraps the loop or the final-result
call, so an exception there propagates before `audio.close()` is reached. -/
def transcribe_audio (rec : RecMachine σ) (wav : WavFile) : TransRun :=
  if wav.nchannels ≠ 1 ∨ wav.sampwidth ≠ 2 ∨ ¬(8000 ≤ wav.framerate ∧ wav.framerate ≤ 48000) then
    { result := Except.ok (none, some invalidAudioMsg), closed := true,
      recInit := false, fed := [] }
  else
    match decodeLoop rec rec.init (readBatches wav.frames) "" with
    | (fed, Except.error e) =>
      { result := Except.error e, closed := false, recInit := true, fed := fed }
    | (fed, Except.ok (s, text)) =>
      match rec.finalResult s with
      | Except.error e =>
        { result := Except.error e, closed := false, recInit := true, fed := fed }
      | Except.ok fin =>
        { result := Except.ok (some (pyStrip (text ++ fin)), none), closed := true,
          recInit := true, fed := fed }

-- ----------------------------------------------------------------
-- Observational description of a decode run
-- ----------------------------------------------------------------

/-- The per-batch recognizer observations along a batch list: the final state
and, for each batch, `some part` at an utterance boundary and `none`
otherwise; an error if the recognizer raises on some batch. -/
def recOutputs (rec : RecMachine σ) :
    σ → List (List Nat) → Except Unit (σ × List (Option String))
  | s, [] => Except.ok (s, [])
  | s, b :: bs =>
    match rec.accept s b with
    | Except.error e => Except.error e
    | Except.ok (s', o) =>
      match recOutputs rec s' bs with
      | Except.error e => Except.error e
      | Except.ok (s'', os) => Except.ok (s'', o :: os)

/-- The text the loop accumulates from a list of boundary observations:
each finalized segment followed by the separator `" "`. -/
def segConcat (os : List (Option String)) : String :=
  String.join ((os.filterMap id).map (fun p => p ++ " "))

theorem strFoldlAppend (l : List String) :
    ∀ a : String, l.foldl (· ++ ·) a = a ++ l.foldl (· ++ ·) "" := by
  induction l with
  | nil => intro a; simp [String.append_empty]
  | cons x xs ih =>
    intro a
    simp only [List.foldl_cons]
    rw [ih (a ++ x), ih ("" ++ x), String.empty_append, String.append_assoc]

theorem strJoin_cons (a : String) (l : List String) :
    String.join (a :: l) = a ++ String.join l := by
  simp only [String.join, List.foldl_cons]
  rw [String.empty_append, strFoldlAppend]

theorem segConcat_none (os : List (Option String)) :
    segConcat (none :: os) = segConcat os := by
  simp [segConcat]

theorem segConcat_some (part : String) (os : List (Option String)) :
    segConcat (some part :: os) = (part ++ " ") ++ segConcat os := by
  simp only [segConcat, List.filterMap_cons, id, List.map_cons]
  exact strJoin_cons _ _

theorem decodeLoop_ok (rec : RecMachine σ) (bs : List (List Nat)) :
    ∀ (s : σ) (s' : σ) (os : List (Option String)) (t0 : String),
      recOutputs rec s bs = Except.ok (s', os) →
      decodeLoop rec s bs t0 = (bs, Except.ok (s', t0 ++ segConcat os)) := by
  induction bs with
  | nil =>
    intro s s' os t0 h
    simp only [recOutputs, Except.ok.injEq, Prod.mk.injEq] at h
    obtain ⟨rfl, rfl⟩ := h
    simp [decodeLoop, segConcat, String.join, String.append_empty]
  | cons b bs ih =>
    intro s s' os t0 h
    simp only [recOutputs] at h
    cases hacc : rec.accept s b with
    | error e => simp only [hacc] at h; exact Except.noConfusion h
    | ok p =>
      obtain ⟨s1, o⟩ := p
      simp only [hacc] at h
      cases hrest : recOutputs rec s1 bs with
      | error e => simp only [hrest] at h; exact Except.noConfusion h
      | ok q =>
        obtain ⟨s2, os2⟩ := q
        simp only [hrest, Except.ok.injEq, Prod.mk.injEq] at h
        obtain ⟨rfl, rfl⟩ := h
        cases o with
        | none =>
          simp only [decodeLoop, hacc]
          rw [ih s1 s2 os2 t0 hrest, segConcat_none]
        | some part =>
          simp only [decodeLoop, hacc]
          rw [ih s1 s2 os2 (t0 ++ part ++ " ") hrest, segConcat_some]
          simp [String.append_assoc]

theorem decodeLoop_err (rec : RecMachine σ) (bs : List (List Nat)) :
    ∀ (s : σ) (t0 : String),
      recOutputs rec s bs = Except.error () →
      (decodeLoop rec s bs t0).2 = Except.error () := by
  induction bs with
  | nil => intro s t0 h; exact Except.noConfusion h
  | cons b bs ih =>
    intro s t0 h
    simp only [recOutputs] at h
    cases hacc : rec.accept s b with
    | error e =>
      cases e
      simp [decodeLoop, hacc]
    | ok p =>
      obtain ⟨s1, o⟩ := p
      simp only [hacc] at h
      cases hrest : recOutputs rec s1 bs with
      | error e =>
        cases e
        cases o with
        | none =>
          simp only [decodeLoop, hacc]
          rcases hd : decodeLoop rec s1 bs t0 with ⟨fed, out⟩
          have h2 := ih s1 t0 hrest
          rw [hd] at h2
          exact h2
        | some part =>
          simp only [decodeLoop, hacc]
          rcases hd : decodeLoop rec s1 bs (t0 ++ part ++ " ") with ⟨fed, out⟩
          have h2 := ih s1 (t0 ++ part ++ " ") hrest
          rw [hd] at h2
          exact h2
      | ok q =>
        obtain ⟨s2, os2⟩ := q
        simp only [hrest] at h
        exact Except.noConfusion h

-- ----------------------------------------------------------------
-- Per-chunk model-invocation lemmas
-- ----------------------------------------------------------------

theorem runChunks_all_ok (m : GenModel) (f : String → String) :
    ∀ cs : List String, (∀ c ∈ cs, m genParams c = some (f c)) →
      runChunks m cs = (cs, some (cs.map f)) := by
  intro cs
  induction cs with
  | nil => intro _; rfl
  | cons c cs ih =>
    intro h
    have hc : m genParams c = some (f c) := h c (List.mem_cons_self c cs)
    have hrest := ih (fun x hx => h x (List.mem_cons_of_mem c hx))
    simp [runChunks, hc, hrest]

theorem runChunks_fail (m : GenModel) :
    ∀ cs : List String, (∃ c ∈ cs, m genParams c = none) →
      (runChunks m cs).2 = none := by
  intro cs
  induction cs with
  | nil => rintro ⟨c, hc, _⟩; exact absurd hc (List.not_mem_nil c)
  | cons c cs ih =>
    rintro ⟨c0, hc0, hnone⟩
    cases hm : m genParams c with
    | none => simp [runChunks, hm]
    | some s =>
      rcases List.mem_cons.mp hc0 with rfl | htail
      · rw [hm] at hnone; exact Option.noConfusion hnone
      · have h2 := ih ⟨c0, htail, hnone⟩
        rcases hr : runChunks m cs with ⟨fed, o⟩
        rw [hr] at h2
        simp only at h2
        subst h2
        simp [runChunks, hm, hr]

-- ----------------------------------------------------------------
-- Summarizer with the model's source of randomness made explicit
-- ----------------------------------------------------------------

/-- The generation model with its sampling randomness made explicit: it also
consumes and returns the state of the random source.  A model honouring
`do_sample = False` produces an output that does not depend on that state. -/
def RandModel : Type := GenParams → String → Nat → Option String × Nat

/-- The chunk loop over a `RandModel`, threading the random state through
the successive invocations. -/
def runChunksRand (m : RandModel) : List String → Nat → Option (List String) × Nat
  | [], r => (some [], r)
  | c :: cs, r =>
    match m genParams c r with
    | (none, r1) => (none, r1)
    | (some s, r1) =>
      match runChunksRand m cs r1 with
      | (none, r2) => (none, r2)
      | (some ss, r2) => (some (s :: ss), r2)

/-- `summarize_text_offline` over a `RandModel`: identical to `summarizeRun`
except that the state of the random source is threaded through the model
invocations. -/
def summarize_rand (m : RandModel) (text : String) (r : Nat) :
    Except Unit (Option String × Option String) :=
  if text = "" ∨ pyStrip text = "" then
    Except.ok (none, some emptyTranscriptMsg)
  else
    match (runChunksRand m (strChunks 1200 (promptOf text)) r).1 with
    | none => Except.error ()
    | some summaries =>
      Except.ok (some (pyStrip (String.intercalate " " summaries)), none)

theorem runChunksRand_fst (m : RandModel)
    (hdet : ∀ p x r r', p.do_sample = false → (m p x r).1 = (m p x r').1) :
    ∀ (cs : List String) (r r' : Nat),
      (runChunksRand m cs r).1 = (runChunksRand m cs r').1 := by
  intro cs
  induction cs with
  | nil => intro r r'; rfl
  | cons c cs ih =>
    intro r r'
    have h1 : (m genParams c r).1 = (m genParams c r').1 := hdet _ _ _ _ rfl
    simp only [runChunksRand]
    rcases hm : m genParams c r with ⟨o, r1⟩
    rcases hm' : m genParams c r' with ⟨o', r1'⟩
    rw [hm, hm'] at h1
    simp only at h1
    subst h1
    cases o with
    | none => rfl
    | some s =>
      have h2 := ih r1 r1'
      rcases h3 : runChunksRand m cs r1 with ⟨u, r2⟩
      rcases h4 : runChunksRand m cs r1' with ⟨u', r2'⟩
      rw [h3, h4] at h2
      simp only at h2
      subst h2
      cases u with
      | none => simp [h3, h4]
      | some ss => simp [h3, h4]

-- ----------------------------------------------------------------
-- String-level chunking lemmas
-- ----------------------------------------------------------------

theorem strJoin_map_mk (L : List (List Char)) :
    String.join (L.map String.mk) = String.mk L.flatten := by
  induction L with
  | nil => rfl
  | cons a L ih => rw [List.map_cons, strJoin_cons, ih, List.flatten_cons]; rfl

theorem strChunks_length (n : Nat) (s : String) :
    (strChunks n s).length = (s.length + n - 1) / n := by
  simp only [strChunks, List.length_map, chunksOf_length]
  rfl

theorem strChunks_get (n : Nat) (s : String) (i : Fin (strChunks n s).length) :
    (strChunks n s).get i = String.mk ((s.data.drop (i.val * n)).take n) := by
  rcases i with ⟨i, hi⟩
  simp only [strChunks, List.length_map] at hi
  simp only [strChunks, List.get_map]
  congr 1
  exact chunksOf_get n s.data ⟨i, hi⟩

-- ----------------------------------------------------------------
-- A successful decode run of `transcribe_audio`
-- ----------------------------------------------------------------

theorem goodFormat_not (wav : WavFile)
    (hfmt : wav.nchannels = 1 ∧ wav.sampwidth = 2 ∧
      8000 ≤ wav.framerate ∧ wav.framerate ≤ 48000) :
    ¬(wav.nchannels ≠ 1 ∨ wav.sampwidth ≠ 2 ∨
      ¬(8000 ≤ wav.framerate ∧ wav.framerate ≤ 48000)) := by
  obtain ⟨h1, h2, h3, h4⟩ := hfmt
  simp [h1, h2, h3, h4]

theorem transcribe_run_ok (rec : RecMachine σ) (wav : WavFile)
    (s' : σ) (os : List (Option String)) (fin : String)
    (hfmt : wav.nchannels = 1 ∧ wav.sampwidth = 2 ∧
      8000 ≤ wav.framerate ∧ wav.framerate ≤ 48000)
    (hrun : recOutputs rec rec.init (readBatches wav.frames) = Except.ok (s', os))
    (hfin : rec.finalResult s' = Except.ok fin) :
    (transcribe_audio rec wav).fed = readBatches wav.frames ∧
    (transcribe_audio rec wav).result =
      Except.ok (some (pyStrip (segConcat os ++ fin)), none) := by
  have hc := goodFormat_not wav hfmt
  have hloop := decodeLoop_ok rec (readBatches wav.frames) rec.init s' os "" hrun
  rw [String.empty_append] at hloop
  refine ⟨?_, ?_⟩ <;> (unfold transcribe_audio; rw [if_neg hc]; simp [hloop, hfin])

-- ----------------------------------------------------------------
-- Concrete recognizers, models and audio sources
-- ----------------------------------------------------------------

/-- A recognizer whose `AcceptWaveform` (and `FinalResult`) raises. -/
def errRec : RecMachine Unit :=
  { init := (), accept := fun _ _ => Except.error (),
    finalResult := fun _ => Except.error () }

/-- A valid mono 16-bit 16 kHz source holding one frame. -/
def wavGood : WavFile :=
  { nchannels := 1, sampwidth := 2, framerate := 16000, frames := [0] }

/-- A stereo 44100 Hz source: violates the format constraint. -/
def wavStereo : WavFile :=
  { nchannels := 2, sampwidth := 2, framerate := 44100, frames := [] }

/-- A recognizer reaching one utterance boundary with text "hello", whose
final result is "world"; its state counts the batches fed. -/
def okRec : RecMachine Nat :=
  { init := 0,
    accept := fun s _ => Except.ok (s + 1, if s = 0 then some "hello" else none),
    finalResult := fun _ => Except.ok "world" }

/-- A recognizer producing the boundary segments "hello" then "", and the
final segment "world". -/
def emptySegRec : RecMachine Nat :=
  { init := 0,
    accept := fun s _ =>
      Except.ok (s + 1, if s = 0 then some "hello" else if s = 1 then some "" else none),
    finalResult := fun _ => Except.ok "world" }

/-- A valid mono source with 4001 frames: the read loop yields two batches. -/
def wavTwoBatches : WavFile :=
  { nchannels := 1, sampwidth := 2, framerate := 16000,
    frames := List.replicate 4001 0 }

/-- A generation model that raises on every input. -/
def failGenModel : GenModel := fun _ _ => none

/-- A generation model that outputs "S" on every input. -/
def constGenModel : GenModel := fun _ _ => some "S"

/-- A randomized model whose output ignores the random state (as a
`do_sample = False` configuration requires) while still consuming it. -/
def echoRandModel : RandModel := fun _ x r => (some x, r + 1)

-- ----------------------------------------------------------------
-- Claims
-- ----------------------------------------------------------------

/-- C1, counterexample: on a format-valid source, a recognizer whose
`AcceptWaveform` raises on the first batch makes `transcribe_audio`
propagate the exception before reaching `audio.close()`: the audio handle
is NOT closed on this exit path, refuting "closed on every exit path". -/
theorem transcribe_error_leaves_handle_open :
    (transcribe_audio errRec wavGood).closed = false := by rfl

/-- C1 (amended): the audio handle is closed exactly on the exit paths
that return a value — the format-validation failure path and the normal
completion path; on any path where the recognizer (or its final-result
call) raises, the exception propagates and the handle is left open. -/
theorem transcribe_closed_iff_no_exception (rec : RecMachine σ) (wav : WavFile) :
    (transcribe_audio rec wav).closed = true ↔
      (transcribe_audio rec wav).result ≠ Except.error () := by
  unfold transcribe_audio
  by_cases hc : (wav.nchannels ≠ 1 ∨ wav.sampwidth ≠ 2 ∨
      ¬(8000 ≤ wav.framerate ∧ wav.framerate ≤ 48000))
  · rw [if_pos hc]
    simp
  · rw [if_neg hc]
    rcases hd : decodeLoop rec rec.init (readBatches wav.frames) "" with ⟨fed, out⟩
    cases out with
    | error e => cases e; simp
    | ok p =>
      rcases p with ⟨s, text⟩
      cases hf : rec.finalResult s with
      | error e => cases e; simp [hf]
      | ok fin => simp [hf]

/-- C2, counterexample: when the model raises on a chunk, the exception
propagates out of `summarize_text_offline`; the function does not return a
`(None, error)` pair (there is no `SummarizationFailure` return path). -/
theorem summarize_failure_not_returned :
    summarize_text_offline failGenModel "hello" = Except.error () ∧
    summarize_text_offline failGenModel "hello" ≠
      Except.ok (none, some "SummarizationFailure") := by
  constructor
  · rfl
  · intro h
    exact Except.noConfusion h

/-- C2 (amended): if the model invocation raises on any chunk, the whole
summarization aborts with the exception propagating out of
`summarize_text_offline` (so no value at all — in particular no partial
summary built from the successful chunks — is returned). -/
theorem summarize_model_failure (m : GenModel) (text : String)
    (hne : pyStrip text ≠ "")
    (hfail : ∃ c ∈ strChunks 1200 (promptOf text), m genParams c = none) :
    summarize_text_offline m text = Except.error () := by
  have hcond : ¬(text = "" ∨ pyStrip text = "") := by
    rintro (rfl | h)
    · exact hne rfl
    · exact hne h
  have h2 := runChunks_fail m _ hfail
  rcases hr : runChunks m (strChunks 1200 (promptOf text)) with ⟨fed, o⟩
  rw [hr] at h2
  simp only at h2
  subst h2
  simp [summarize_text_offline, summarizeRun, hcond, hr]

theorem summarize_model_failure_witness :
    summarize_text_offline failGenModel "hi" = Except.error () :=
  summarize_model_failure failGenModel "hi" (by decide) (by decide)

/-- C3, counterexample: a recognizer error during the frame-batch decoding
loop propagates out of `transcribe_audio` as an exception; the function
does not return a `(None, error)` pair on this path. -/
theorem transcribe_error_not_returned :
    (transcribe_audio errRec wavGood).result = Except.error () ∧
    (transcribe_audio errRec wavGood).result ≠
      Except.ok (none, some "RecognitionFailure") := by
  constructor
  · rfl
  · intro h
    exact Except.noConfusion h

/-- C3 (amended): for a format-valid source, if the recognizer raises
during the frame-batch decoding loop, the whole decode aborts with the
exception propagating out of `transcribe_audio` (so no value — in
particular no partial transcript — is returned). -/
theorem transcribe_recognizer_error_propagates (rec : RecMachine σ) (wav : WavFile)
    (hfmt : wav.nchannels = 1 ∧ wav.sampwidth = 2 ∧
      8000 ≤ wav.framerate ∧ wav.framerate ≤ 48000)
    (herr : recOutputs rec rec.init (readBatches wav.frames) = Except.error ()) :
    (transcribe_audio rec wav).result = Except.error () := by
  have hc := goodFormat_not wav hfmt
  have h2 := decodeLoop_err rec (readBatches wav.frames) rec.init "" herr
  rcases hd : decodeLoop rec rec.init (readBatches wav.frames) "" with ⟨fed, out⟩
  rw [hd] at h2
  simp only at h2
  subst h2
  unfold transcribe_audio
  rw [if_neg hc]
  simp [hd]

theorem transcribe_recognizer_error_witness :
    (transcribe_audio errRec wavGood).result = Except.error () :=
  transcribe_recognizer_error_propagates errRec wavGood (by decide) (by rfl)

/-- C4: for any source whose channel count is not 1, or sample width not
2 bytes, or frame rate outside [8000, 48000], `transcribe_audio` closes the
source, returns the invalid-format error, never constructs the recognizer,
and feeds no frames to it. -/
theorem transcribe_invalid_format (rec : RecMachine σ) (wav : WavFile)
    (h : wav.nchannels ≠ 1 ∨ wav.sampwidth ≠ 2 ∨
      wav.framerate < 8000 ∨ 48000 < wav.framerate) :
    transcribe_audio rec wav =
      { result := Except.ok (none, some invalidAudioMsg), closed := true,
        recInit := false, fed := [] } := by
  have hc : wav.nchannels ≠ 1 ∨ wav.sampwidth ≠ 2 ∨
      ¬(8000 ≤ wav.framerate ∧ wav.framerate ≤ 48000) := by
    rcases h with h | h | h | h
    exacts [Or.inl h, Or.inr (Or.inl h),
      Or.inr (Or.inr (by omega)), Or.inr (Or.inr (by omega))]
  unfold transcribe_audio
  rw [if_pos hc]

theorem transcribe_invalid_format_witness :
    transcribe_audio errRec wavStereo =
      { result := Except.ok (none, some invalidAudioMsg), closed := true,
        recInit := false, fed := [] } :=
  transcribe_invalid_format errRec wavStereo (Or.inl (by decide))

/-- C5: chunking is a total partition of the prompt: the chunks concatenate
back to the prompt, every chunk has length at most 1200, and chunk `i` is
exactly the contiguous slice of the prompt starting at character `1200*i`
(hence in order, no overlap, no gaps). -/
theorem prompt_chunking_partition (s : String) :
    String.join (strChunks 1200 s) = s ∧
    (∀ i : Fin (strChunks 1200 s).length,
      ((strChunks 1200 s).get i).length ≤ 1200) ∧
    (∀ i : Fin (strChunks 1200 s).length,
      (strChunks 1200 s).get i =
        String.mk ((s.data.drop (1200 * i.val)).take 1200)) := by
  refine ⟨?_, ?_, ?_⟩
  · rw [strChunks, strJoin_map_mk, chunksOf_flatten 1200 (by omega)]
  · intro i
    rw [strChunks_get]
    simp [List.length_take]
  · intro i
    rw [strChunks_get, Nat.mul_comm]

/-- C6: for a transcript that is non-empty after stripping, when every model
invocation succeeds, `summarize_text_offline` produces exactly
`ceil(promptLength/1200)` chunks of the interpolated prompt, feeds exactly
those chunks to the model once each in order, and returns the per-chunk
outputs joined by a single space with the concatenation stripped. -/
theorem summarize_success_shape (m : GenModel) (f : String → String) (text : String)
    (hne : pyStrip text ≠ "")
    (hm : ∀ c ∈ strChunks 1200 (promptOf text), m genParams c = some (f c)) :
    (strChunks 1200 (promptOf text)).length =
      ((promptOf text).length + 1199) / 1200 ∧
    summarizerCalls m text = strChunks 1200 (promptOf text) ∧
    summarize_text_offline m text =
      Except.ok (some (pyStrip (String.intercalate " "
        ((strChunks 1200 (promptOf text)).map f))), none) := by
  have hcond : ¬(text = "" ∨ pyStrip text = "") := by
    rintro (rfl | h)
    · exact hne rfl
    · exact hne h
  have hrc := runChunks_all_ok m f _ hm
  refine ⟨?_, ?_, ?_⟩
  · rw [strChunks_length]
    omega
  · simp [summarizerCalls, summarizeRun, hcond, hrc]
  · simp [summarize_text_offline, summarizeRun, hcond, hrc]

theorem summarize_success_witness :
    (strChunks 1200 (promptOf "hello")).length =
      ((promptOf "hello").length + 1199) / 1200 ∧
    summarizerCalls constGenModel "hello" = strChunks 1200 (promptOf "hello") ∧
    summarize_text_offline constGenModel "hello" =
      Except.ok (some (pyStrip (String.intercalate " "
        ((strChunks 1200 (promptOf "hello")).map (fun _ => "S")))), none) :=
  summarize_success_shape constGenModel (fun _ => "S") "hello" (by decide)
    (fun c _ => rfl)

/-- C7: for a transcript that is empty or whitespace-only (empty after
stripping), `summarize_text_offline` returns the empty-transcript error
immediately and the generation model is never invoked. -/
theorem summarize_empty_transcript (m : GenModel) (text : String)
    (h : pyStrip text = "") :
    summarize_text_offline m text = Except.ok (none, some emptyTranscriptMsg) ∧
    summarizerCalls m text = [] := by
  have hcond : (text = "" ∨ pyStrip text = "") := Or.inr h
  constructor <;> simp [summarize_text_offline, summarizerCalls, summarizeRun, hcond]

theorem summarize_empty_transcript_witness :
    (summarize_text_offline failGenModel "   " =
      Except.ok (none, some emptyTranscriptMsg) ∧
    summarizerCalls failGenModel "   " = []) :=
  summarize_empty_transcript failGenModel "   " (by decide)

/-- C8: for a format-valid source on which the recognizer completes without
error, `transcribe_audio` feeds exactly the successive 4000-frame batches of
the stream to the recognizer, appends the finalized text plus a separator at
every utterance boundary, appends the final result after the loop, and
returns the stripped concatenation. -/
theorem transcribe_success_shape (rec : RecMachine σ) (wav : WavFile)
    (s' : σ) (os : List (Option String)) (fin : String)
    (hfmt : wav.nchannels = 1 ∧ wav.sampwidth = 2 ∧
      8000 ≤ wav.framerate ∧ wav.framerate ≤ 48000)
    (hrun : recOutputs rec rec.init (readBatches wav.frames) = Except.ok (s', os))
    (hfin : rec.finalResult s' = Except.ok fin) :
    (transcribe_audio rec wav).fed = readBatches wav.frames ∧
    (transcribe_audio rec wav).result =
      Except.ok (some (pyStrip (segConcat os ++ fin)), none) :=
  transcribe_run_ok rec wav s' os fin hfmt hrun hfin

theorem transcribe_success_witness :
    (transcribe_audio okRec wavGood).fed = readBatches wavGood.frames ∧
    (transcribe_audio okRec wavGood).result =
      Except.ok (some (pyStrip (segConcat [some "hello"] ++ "world")), none) :=
  transcribe_success_shape okRec wavGood 1 [some "hello"] "world"
    (by decide) (by rfl) (by rfl)

/-- C9: summarization is deterministic: for a model honouring
`do_sample = false` (output independent of the sampling-randomness state),
two runs of the summarizer on the same transcript give identical results,
whatever the state of the random source. -/
theorem summarize_deterministic (m : RandModel)
    (hdet : ∀ p x r r', p.do_sample = false → (m p x r).1 = (m p x r').1)
    (text : String) (r r' : Nat) :
    summarize_rand m text r = summarize_rand m text r' := by
  unfold summarize_rand
  by_cases hc : (text = "" ∨ pyStrip text = "")
  · rw [if_pos hc, if_pos hc]
  · rw [if_neg hc, if_neg hc,
      runChunksRand_fst m hdet (strChunks 1200 (promptOf text)) r r']

theorem summarize_deterministic_witness :
    summarize_rand echoRandModel "hi" 0 = summarize_rand echoRandModel "hi" 99 :=
  summarize_deterministic echoRandModel (fun _ _ _ _ _ => rfl) "hi" 0 99

/-- C10: the loop appends a separator after every boundary segment, empty
ones included: with boundary segments "hello" then "" and final segment
"world", the returned transcript is "hello  world", which contains two
consecutive spaces and differs from the single-space join of the non-empty
segments. -/
theorem transcribe_double_space :
    (transcribe_audio emptySegRec wavTwoBatches).result =
      Except.ok (some "hello  world", none) ∧
    ("hello  world").data =
      ['h', 'e', 'l', 'l', 'o', ' ', ' ', 'w', 'o', 'r', 'l', 'd'] ∧
    "hello  world" ≠ String.intercalate " " ["hello", "world"] := by
  have hbatch : readBatches (List.replicate 4001 (0 : Nat)) =
      [List.replicate 4000 0, [0]] := by
    rw [readBatches, chunksOf_cons 4000 (by omega) _
        (List.ne_nil_of_length_pos (by rw [List.length_replicate]; norm_num)),
      List.take_replicate, List.drop_replicate]
    norm_num
    rfl
  have hrun : recOutputs emptySegRec emptySegRec.init
      (readBatches wavTwoBatches.frames) =
      Except.ok (2, [some "hello", some ""]) := by
    show recOutputs emptySegRec 0 (readBatches (List.replicate 4001 0)) = _
    rw [hbatch]
    rfl
  have h := transcribe_run_ok emptySegRec wavTwoBatches 2
    [some "hello", some ""] "world" (by decide) hrun (by rfl)
  have hs : pyStrip (segConcat [some "hello", some ""] ++ "world") =
      "hello  world" := by decide
  refine ⟨?_, rfl, ?_⟩
  · rw [h.2, hs]
  · intro hcontra
    exact absurd hcontra (by decide)
